import Mathlib

/-!
Shallow embedding of the medical-report analyzer app (app.py) and proofs
about its helper functions and request orchestrator.

The embedding has two layers:
* a pure layer for the image compositor, the output cleaner and the
  base64 encoder;
* an effectful layer for the file-system-touching code (pdf rasterization,
  request handler, temp-file cleanup), modelled as explicit state passing
  over a file-system log, with the outcomes of the external libraries
  (pdf2image, the Gemini client) supplied by an environment record.
-/

namespace MedApp

/-! ## Pure image layer

An image is a width, a height and a pixel function (colors as Nat).
This models a PIL image as far as the compositor observes it. -/

structure Img where
  width : Nat
  height : Nat
  pixel : Nat → Nat → Nat

/-- PIL Image.new: a blank (black) canvas of the given size. -/
def Img.new (w h : Nat) : Img :=
  { width := w, height := h, pixel := fun _ _ => 0 }

/-- PIL Image.paste: overwrite the rectangle of the canvas whose top-left
corner is (px, py) with the pasted image, clipped to the canvas bounds. -/
def Img.paste (canvas img : Img) (px py : Nat) : Img :=
  { canvas with
    pixel := fun x y =>
      if px ≤ x ∧ x < px + img.width ∧ py ≤ y ∧ y < py + img.height ∧
          x < canvas.width ∧ y < canvas.height then
        img.pixel (x - px) (y - py)
      else
        canvas.pixel x y }

/-- The paste loop of combine_images_vertically: paste each image at
x = 0 and the running vertical offset, advancing the offset by the
pasted image's height. -/
def pasteColumn (canvas : Img) (y : Nat) : List Img → Img
  | [] => canvas
  | img :: rest => pasteColumn (canvas.paste img 0 y) (y + img.height) rest

/-- combine_images_vertically (app.py lines 64-86), image-level core:
returns None (none) on an empty list; otherwise allocates a canvas of
width = max width and height = sum of heights and pastes every page at
x = 0, y = running offset, in input order. -/
def combine_images_vertically (images : List Img) : Option Img :=
  match images with
  | [] => none
  | _ :: _ =>
    let combined_width := (images.map Img.width).foldl max 0
    let combined_height := (images.map Img.height).sum
    some (pasteColumn (Img.new combined_width combined_height) 0 images)

/-- Sum of the heights of the pages strictly before index i. -/
def heightsBefore (images : List Img) (i : Nat) : Nat :=
  ((images.take i).map Img.height).sum

/-! ## Output cleaner (clean_result, app.py lines 98-101) -/

/-- The characters Python str.strip() with no argument removes: the
Unicode whitespace characters, as Python str.isspace defines them. -/
def isPySpace (c : Char) : Bool :=
  c ∈ [' ', '\t', '\n', '\x0b', '\x0c', '\r',
       '\x1c', '\x1d', '\x1e', '\x1f',
       '\x85', ' ', ' ',
       ' ', ' ', ' ', ' ', ' ', ' ',
       ' ', ' ', ' ', ' ', ' ',
       ' ', ' ', ' ', ' ', '　']

/-- A code point inside the 7-bit ASCII range, i.e. one the regular
expression [^\x00-\x7F]+ does not match. -/
def isAscii7 (c : Char) : Bool :=
  c.toNat ≤ 0x7F

/-- Python str.strip(): drop leading and trailing whitespace. -/
def pyStrip (l : List Char) : List Char :=
  ((l.dropWhile isPySpace).reverse.dropWhile isPySpace).reverse

/-- clean_result: delete every code point outside the 7-bit ASCII range
(re.sub of [^\x00-\x7F]+ with the empty string), then strip leading and
trailing whitespace. -/
def clean_result (s : List Char) : List Char :=
  pyStrip (s.filter isAscii7)

/-- clean_result on Lean strings (the form the analyzer uses). -/
def clean_resultS (s : String) : String :=
  String.mk (clean_result s.data)

/-! ## Base64 (encode_image_to_base64, app.py lines 104-110) -/

/-- The standard base64 alphabet, index 0..63 to character. -/
def b64Char (n : Nat) : Char :=
  if n < 26 then Char.ofNat (65 + n)
  else if n < 52 then Char.ofNat (97 + (n - 26))
  else if n < 62 then Char.ofNat (48 + (n - 52))
  else if n = 62 then '+'
  else '/'

/-- Inverse of the base64 alphabet, character to index 0..63. -/
def b64Index (c : Char) : Nat :=
  if 65 ≤ c.toNat ∧ c.toNat ≤ 90 then c.toNat - 65
  else if 97 ≤ c.toNat ∧ c.toNat ≤ 122 then c.toNat - 97 + 26
  else if 48 ≤ c.toNat ∧ c.toNat ≤ 57 then c.toNat - 48 + 52
  else if c = '+' then 62
  else 63

/-- Standard base64 encoding with '=' padding (Python base64.b64encode)
of a byte list (each byte a Nat below 256). -/
def b64encodeBytes : List Nat → List Char
  | [] => []
  | [a] => [b64Char (a / 4), b64Char (a % 4 * 16), '=', '=']
  | [a, b] => [b64Char (a / 4), b64Char (a % 4 * 16 + b / 16),
               b64Char (b % 16 * 4), '=']
  | a :: b :: c :: rest =>
      b64Char (a / 4) :: b64Char (a % 4 * 16 + b / 16) ::
      b64Char (b % 16 * 4 + c / 64) :: b64Char (c % 64) ::
      b64encodeBytes rest

/-- Standard base64 decoding of a padded base64 character list. -/
def b64decodeChars : List Char → List Nat
  | w :: x :: y :: z :: rest =>
      if y = '=' then
        [b64Index w * 4 + b64Index x / 16]
      else if z = '=' then
        [b64Index w * 4 + b64Index x / 16,
         b64Index x % 16 * 16 + b64Index y / 4]
      else
        (b64Index w * 4 + b64Index x / 16) ::
        (b64Index x % 16 * 16 + b64Index y / 4) ::
        (b64Index y % 4 * 64 + b64Index z) ::
        b64decodeChars rest
  | _ => []

/-- encode_image_to_base64: the fixed data-URI head followed by the
base64 encoding of the file's bytes. -/
def encode_image_to_base64 (fileBytes : List Nat) : List Char :=
  "data:image/png;base64,".toList ++ b64encodeBytes fileBytes

/-! ## Effectful layer: file system model

The file system is a log: the set of currently existing temp files, the
log of every file ever created, the log of every os.remove attempt, and
the log of successful removals.  Saving an image additionally records
which image was written to which path. -/

structure FS where
  existing : List String
  created : List String
  removeAttempts : List String
  removed : List String
  savedImages : List (String × Img)

def FS.init : FS :=
  { existing := [], created := [], removeAttempts := [],
    removed := [], savedImages := [] }

/-- Writing a file to a path (file_storage.save / image.save). -/
def FS.save (fs : FS) (p : String) : FS :=
  { fs with
    existing := if p ∈ fs.existing then fs.existing else p :: fs.existing,
    created := p :: fs.created }

/-- Writing an image file: a save that also records the image content. -/
def FS.saveImage (fs : FS) (p : String) (img : Img) : FS :=
  { fs.save p with savedImages := (p, img) :: (fs.save p).savedImages }

/-- os.remove: the attempt is always logged; the file is erased and the
removal succeeds exactly when the file existed (otherwise OSError). -/
def FS.removeAttempt (fs : FS) (p : String) : FS :=
  { fs with
    removeAttempts := p :: fs.removeAttempts,
    removed := if p ∈ fs.existing then p :: fs.removed else fs.removed,
    existing := fs.existing.filter (fun q => q ≠ p) }

/-- Whether os.remove on p would succeed (raise no OSError) in fs. -/
def FS.removeWouldSucceed (fs : FS) (p : String) : Bool :=
  p ∈ fs.existing

/-- Image.open on a saved temp path: the most recently written image. -/
def FS.readImage (fs : FS) (p : String) : Option Img :=
  (fs.savedImages.find? (fun q => q.1 = p)).map Prod.snd

/-- Request-processing state: the file system plus the position in the
tempfile._get_candidate_names() name stream. -/
structure St where
  fs : FS
  ctr : Nat

def St.init : St := { fs := FS.init, ctr := 0 }

/-- Draw the next candidate temp-file name from the stream. -/
def freshName (names : Nat → String) (st : St) : String × St :=
  (names st.ctr, { st with ctr := st.ctr + 1 })

/-- Environment: resolves everything outside the script itself — the
request contents, the temp-name stream, and the outcomes of the two
external libraries (pdf2image's convert_from_path, and the Gemini
client call made for each of the six sections, the text of a successful
response or the message of the exception it raised).  Two fault
injections model unexpected exceptions: pageSaveFails i makes the
image.save call for page index i inside the rasterizer's loop raise
(app.py lines 54-57), and compositeSaveFails makes the composite
image.save call raise (line 84). -/
structure Env where
  uploadedFile : Bool
  filename : String
  tmpNames : Nat → String
  convertResult : Except String (List Img)
  modelResult : Nat → Except String String
  pageSaveFails : Nat → Bool
  compositeSaveFails : Bool
  compositeBytes : List Nat

/-- The page-saving loop of pdf_to_images: save page i+1 to a fresh
path named page_(i+1)_(name).png and collect the paths in page order.
When the fault injection makes image.save raise at index i (app.py
lines 54-57), the exception propagates: the pages already saved stay
on disk and no path list is returned. -/
def savePages (names : Nat → String) (failAt : Nat → Bool) :
    List Img → Nat → St → Except String (List String) × St
  | [], _, st => (Except.ok [], st)
  | img :: rest, i, st =>
      let nmSt := freshName names st
      let p := "page_" ++ toString (i + 1) ++ "_" ++ nmSt.1 ++ ".png"
      if failAt i then (Except.error "page save failed", nmSt.2)
      else
        let st1 : St := { nmSt.2 with fs := nmSt.2.fs.saveImage p img }
        let psSt := savePages names failAt rest (i + 1) st1
        (psSt.1.map (fun ps => p :: ps), psSt.2)

/-- pdf_to_images (app.py lines 40-61): raise ValueError when no file;
write the upload to a fresh temp pdf path; rasterize; save one png per
page in page order; in a finally block remove the temp pdf; return the
page paths.  A convert_from_path failure propagates (after the finally
removes the temp pdf), and so does an image.save failure from the page
loop — in the latter case the pages saved before the failure remain on
disk. -/
def pdf_to_images (env : Env) (hasFile : Bool) (st : St) :
    Except String (List String) × St :=
  if hasFile = false then (Except.error "No PDF file provided.", st)
  else
    let nmSt := freshName env.tmpNames st
    let temp_pdf_path := nmSt.1 ++ ".pdf"
    let st1 : St := { nmSt.2 with fs := nmSt.2.fs.save temp_pdf_path }
    match env.convertResult with
    | Except.error e =>
        (Except.error e,
         { st1 with fs := st1.fs.removeAttempt temp_pdf_path })
    | Except.ok images =>
        let psSt := savePages env.tmpNames env.pageSaveFails images 0 st1
        (psSt.1,
         { psSt.2 with fs := psSt.2.fs.removeAttempt temp_pdf_path })

/-- combine_images_vertically at the file level (as the handler calls
it): on an empty path list return None at once, creating nothing;
otherwise open the page images, build the composite via the image-level
core, and save it to a fresh composite_(name).png path.  The
compositeSaveFails flag makes the image.save call raise. -/
def combine_images_vertically_file (env : Env) (image_paths : List String)
    (st : St) : Except String (Option String) × St :=
  match image_paths with
  | [] => (Except.ok none, st)
  | _ :: _ =>
      let imgs := image_paths.map
        (fun p => (st.fs.readImage p).getD (Img.new 0 0))
      match combine_images_vertically imgs with
      | none => (Except.ok none, st)
      | some comp =>
          if env.compositeSaveFails then
            (Except.error "composite save failed", st)
          else
            let nmSt := freshName env.tmpNames st
            let p := "composite_" ++ nmSt.1 ++ ".png"
            (Except.ok (some p),
             { nmSt.2 with fs := nmSt.2.fs.saveImage p comp })

/-- cleanup_temp_files (app.py lines 89-95): attempt os.remove on each
path, swallowing OSError and moving on.  A None entry makes os.remove
raise TypeError, which the except OSError clause does not catch: the
loop aborts and the exception propagates (Bool result false). -/
def cleanup_temp_files : List (Option String) → St → St × Bool
  | [], st => (st, true)
  | some p :: rest, st =>
      cleanup_temp_files rest { st with fs := st.fs.removeAttempt p }
  | none :: _, st => (st, false)

/-- analyze_image (app.py lines 114-136): on a successful remote call
return the cleaned response text; on any exception return the
user-facing error string embedding the failure reason. -/
def analyze_image (env : Env) (callIdx : Nat) : String :=
  match env.modelResult callIdx with
  | Except.ok text => clean_resultS text
  | Except.error e => "Error: Could not analyze report. API issue: " ++ e

/-- What the /analyze handler can hand back to Flask. -/
inductive Response where
  | redirectError (msg : String)
  | errorPage (msg : String)
  | resultsPage (results : List String) (b64 : List Char)

/-- The /analyze handler (app.py lines 213-253): validate the upload,
rasterize, composite, run the six section calls, encode the composite
for display, and in a finally block clean up every path accumulated in
temp_paths.  An exception escaping the handler itself (the TypeError
os.remove(None) raises inside the finally when the composite was None)
is the Except.error case of the result. -/
def analyze (env : Env) : Except String Response × St :=
  if env.uploadedFile = false ∨ env.filename = "" then
    (Except.ok (Response.redirectError "No file selected."), St.init)
  else
    match pdf_to_images env true St.init with
    | (Except.error e, st1) =>
        -- except: error page; finally: cleanup of the still-empty temp_paths
        (Except.ok (Response.errorPage
          ("An error occurred during processing: " ++ e)), st1)
    | (Except.ok image_paths, st1) =>
        match combine_images_vertically_file env image_paths st1 with
        | (Except.error e, st2) =>
            -- composite append never ran: temp_paths holds the pages only
            let clSt := cleanup_temp_files (image_paths.map some) st2
            (Except.ok (Response.errorPage
              ("An error occurred during processing: " ++ e)), clSt.1)
        | (Except.ok compOpt, st2) =>
            let temp_paths := image_paths.map some ++ [compOpt]
            let results :=
              [analyze_image env 0, analyze_image env 1, analyze_image env 2,
               analyze_image env 3, analyze_image env 4, analyze_image env 5]
            match compOpt with
            | none =>
                -- encode_image_to_base64(None) raises TypeError: except
                -- renders the error page, then the finally itself raises
                -- TypeError at the None entry of temp_paths
                let clSt := cleanup_temp_files temp_paths st2
                if clSt.2 then
                  (Except.ok (Response.errorPage
                    ("An error occurred during processing: " ++
                     "TypeError")), clSt.1)
                else
                  (Except.error "TypeError: remove(None)", clSt.1)
            | some _ =>
                let b64 := encode_image_to_base64 env.compositeBytes
                let clSt := cleanup_temp_files temp_paths st2
                if clSt.2 then
                  (Except.ok (Response.resultsPage results b64), clSt.1)
                else
                  (Except.error "TypeError: remove(None)", clSt.1)

/-- The fixed head of the user-facing error string analyze_image builds
when the remote call fails. -/
def errHead : String := "Error: Could not analyze report. API issue: "

/-- A request with no usable upload. -/
def envNoFile : Env :=
  { uploadedFile := false, filename := "", tmpNames := fun n => "t" ++ toString n,
    convertResult := Except.ok [], modelResult := fun _ => Except.error "net",
    pageSaveFails := fun _ => false,
    compositeSaveFails := false, compositeBytes := [] }

/-- A request whose PDF rasterizes to zero pages. -/
def envZeroPages : Env :=
  { uploadedFile := true, filename := "r.pdf",
    tmpNames := fun n => "t" ++ toString n,
    convertResult := Except.ok [],
    modelResult := fun _ => Except.error "net",
    pageSaveFails := fun _ => false,
    compositeSaveFails := false, compositeBytes := [] }

/-- A valid two-page request for which the model service is unreachable
on every call. -/
def envTwoPages : Env :=
  { uploadedFile := true, filename := "r.pdf",
    tmpNames := fun n => "t" ++ toString n,
    convertResult := Except.ok [Img.new 2 3, Img.new 1 2],
    modelResult := fun _ => Except.error "service unreachable",
    pageSaveFails := fun _ => false,
    compositeSaveFails := false, compositeBytes := [137, 80] }

/-- A valid two-page request in which image.save raises while writing
the second page (say the disk fills): the first page PNG is already on
disk when the exception propagates out of pdf_to_images. -/
def envPageFail : Env :=
  { uploadedFile := true, filename := "r.pdf",
    tmpNames := fun n => "t" ++ toString n,
    convertResult := Except.ok [Img.new 2 3, Img.new 1 2],
    modelResult := fun _ => Except.error "net",
    pageSaveFails := fun i => i == 1,
    compositeSaveFails := false, compositeBytes := [] }

/-! ## Theorems -/

theorem pyStrip_eq_rdropWhile (l : List Char) :
    pyStrip l = List.rdropWhile isPySpace (List.dropWhile isPySpace l) :=
  rfl

theorem pyStrip_sublist (l : List Char) : List.Sublist (pyStrip l) l := by
  rw [pyStrip_eq_rdropWhile]
  have h1 := List.rdropWhile_prefix isPySpace (List.dropWhile isPySpace l)
  exact h1.sublist.trans (List.dropWhile_sublist isPySpace)

theorem pyStrip_idem (l : List Char) : pyStrip (pyStrip l) = pyStrip l := by
  rw [pyStrip_eq_rdropWhile, pyStrip_eq_rdropWhile]
  have hd : List.dropWhile isPySpace
      (List.rdropWhile isPySpace (List.dropWhile isPySpace l)) =
      List.rdropWhile isPySpace (List.dropWhile isPySpace l) := by
    apply List.dropWhile_eq_self_iff.mpr
    intro hl
    rw [List.get_mk_zero]
    have hpre := List.rdropWhile_prefix isPySpace (List.dropWhile isPySpace l)
    have hne : List.rdropWhile isPySpace (List.dropWhile isPySpace l) ≠ [] :=
      List.length_pos.mp hl
    rw [hpre.head hne]
    simp only [Bool.not_eq_true]
    exact List.head_dropWhile_not isPySpace l _
  rw [hd, List.rdropWhile_idempotent]

theorem rdropWhile_append_rtakeWhile (p : Char → Bool) (l : List Char) :
    List.rdropWhile p l ++ List.rtakeWhile p l = l := by
  simp only [List.rdropWhile, List.rtakeWhile]
  rw [← List.reverse_append, List.takeWhile_append_dropWhile,
      List.reverse_reverse]

theorem clean_result_sublist (l : List Char) :
    List.Sublist (clean_result l) l := by
  show List.Sublist (pyStrip (l.filter isAscii7)) l
  exact (pyStrip_sublist (l.filter isAscii7)).trans (List.filter_sublist l)

theorem clean_result_head_last (l : List Char) (h : clean_result l ≠ []) :
    isPySpace ((clean_result l).head h) = false ∧
    isPySpace ((clean_result l).getLast h) = false := by
  have h' : List.rdropWhile isPySpace
      (List.dropWhile isPySpace (l.filter isAscii7)) ≠ [] := h
  constructor
  · show isPySpace ((List.rdropWhile isPySpace
      (List.dropWhile isPySpace (l.filter isAscii7))).head h') = false
    have hpre := List.rdropWhile_prefix isPySpace
      (List.dropWhile isPySpace (l.filter isAscii7))
    rw [hpre.head h']
    exact List.head_dropWhile_not isPySpace (l.filter isAscii7) _
  · show isPySpace ((List.rdropWhile isPySpace
      (List.dropWhile isPySpace (l.filter isAscii7))).getLast h') = false
    have := List.rdropWhile_last_not isPySpace
      (List.dropWhile isPySpace (l.filter isAscii7)) h'
    simpa using this

theorem clean_result_idem_list (s : List Char) :
    clean_result (clean_result s) = clean_result s := by
  unfold clean_result
  have hall : ∀ c ∈ pyStrip (s.filter isAscii7), isAscii7 c = true := by
    intro c hc
    have hm := (pyStrip_sublist (s.filter isAscii7)).subset hc
    exact (List.mem_filter.mp hm).2
  rw [List.filter_eq_self.mpr hall, pyStrip_idem]

/-- C7: clean_result is idempotent: applying it twice yields the same
output as applying it once. -/
theorem thm_clean_result_idempotent (s : String) :
    clean_resultS (clean_resultS s) = clean_resultS s := by
  unfold clean_resultS
  exact congrArg String.mk (clean_result_idem_list s.data)

/-- C6: clean_result removes exactly the code points outside the 7-bit
ASCII range and all leading and trailing whitespace, preserving the
interior ASCII characters and their relative order: the ASCII
subsequence of the input splits as whitespace-run ++ output ++
whitespace-run, the output is a subsequence of the input consisting of
ASCII characters only, and the output neither starts nor ends with
whitespace. -/
theorem thm_clean_result_removes_exactly (s : String) :
    ∃ pre post : List Char,
      s.data.filter isAscii7 = pre ++ (clean_resultS s).data ++ post ∧
      (∀ c ∈ pre, isPySpace c = true) ∧
      (∀ c ∈ post, isPySpace c = true) ∧
      List.Sublist (clean_resultS s).data s.data ∧
      (∀ c ∈ (clean_resultS s).data, isAscii7 c = true) ∧
      (∀ h : (clean_resultS s).data ≠ [],
        isPySpace ((clean_resultS s).data.head h) = false ∧
        isPySpace ((clean_resultS s).data.getLast h) = false) := by
  have hdata : (clean_resultS s).data = clean_result s.data := rfl
  set l := s.data with hl
  set f := l.filter isAscii7 with hf
  set d := f.dropWhile isPySpace with hd
  have hcr : clean_result l = List.rdropWhile isPySpace d := rfl
  refine ⟨f.takeWhile isPySpace, List.rtakeWhile isPySpace d, ?_, ?_, ?_, ?_, ?_, ?_⟩
  · rw [hdata, hcr, List.append_assoc, rdropWhile_append_rtakeWhile,
        List.takeWhile_append_dropWhile]
  · intro c hc
    exact List.mem_takeWhile_imp hc
  · intro c hc
    exact List.mem_rtakeWhile_imp hc
  · rw [hdata]
    exact clean_result_sublist l
  · intro c hc
    rw [hdata] at hc
    have hm := (pyStrip_sublist (l.filter isAscii7)).subset hc
    exact (List.mem_filter.mp hm).2
  · intro h
    exact clean_result_head_last l h

theorem foldl_max_init_le (u : List Nat) : ∀ m : Nat, m ≤ u.foldl max m := by
  induction u with
  | nil => intro m; exact le_refl m
  | cons c v ihv => intro m; exact le_trans (le_max_left m c) (ihv (max m c))

theorem le_foldl_max (l : List Nat) : ∀ (a x : Nat), x ∈ l → x ≤ l.foldl max a := by
  induction l with
  | nil => intro a x hx; cases hx
  | cons b t ih =>
      intro a x hx
      cases hx with
      | head =>
          exact le_trans (le_max_right a b) (foldl_max_init_le t (max a b))
      | tail _ hmem => exact ih (max a b) x hmem

theorem foldl_max_mem (l : List Nat) : ∀ a : Nat, l.foldl max a = a ∨ l.foldl max a ∈ l := by
  induction l with
  | nil => intro a; left; rfl
  | cons b t ih =>
      intro a
      rcases ih (max a b) with h | h
      · rcases Nat.le_total a b with hab | hba
        · right
          rw [List.foldl_cons, h, max_eq_right hab]
          exact List.mem_cons_self b t
        · left
          rw [List.foldl_cons, h]
          exact max_eq_left hba
      · right
        rw [List.foldl_cons]
        exact List.mem_cons_of_mem b h

theorem Img.paste_width (canvas img : Img) (px py : Nat) :
    (canvas.paste img px py).width = canvas.width := rfl

theorem Img.paste_height (canvas img : Img) (px py : Nat) :
    (canvas.paste img px py).height = canvas.height := rfl

theorem pasteColumn_width (l : List Img) : ∀ (canvas : Img) (y : Nat),
    (pasteColumn canvas y l).width = canvas.width := by
  induction l with
  | nil => intro canvas y; rfl
  | cons img rest ih => intro canvas y; exact ih _ _

theorem pasteColumn_height (l : List Img) : ∀ (canvas : Img) (y : Nat),
    (pasteColumn canvas y l).height = canvas.height := by
  induction l with
  | nil => intro canvas y; rfl
  | cons img rest ih => intro canvas y; exact ih _ _

theorem pasteColumn_pixel_lt (l : List Img) : ∀ (canvas : Img) (y x v : Nat),
    v < y → (pasteColumn canvas y l).pixel x v = canvas.pixel x v := by
  induction l with
  | nil => intro canvas y x v _; rfl
  | cons img rest ih =>
      intro canvas y x v hv
      show (pasteColumn (canvas.paste img 0 y) (y + img.height) rest).pixel x v
        = canvas.pixel x v
      rw [ih _ _ _ _ (by omega)]
      unfold Img.paste
      simp only
      rw [if_neg]
      intro hcond
      omega

theorem heightsBefore_zero (l : List Img) : heightsBefore l 0 = 0 := rfl

theorem heightsBefore_succ_cons (img : Img) (rest : List Img) (j : Nat) :
    heightsBefore (img :: rest) (j + 1) = img.height + heightsBefore rest j := by
  unfold heightsBefore
  rw [List.take_succ_cons, List.map_cons, List.sum_cons]

theorem pasteColumn_pixel (l : List Img) :
    ∀ (canvas : Img) (y i : Nat) (hi : i < l.length) (x yy : Nat),
    x < (l.get ⟨i, hi⟩).width → yy < (l.get ⟨i, hi⟩).height →
    x < canvas.width → y + heightsBefore l i + yy < canvas.height →
    (pasteColumn canvas y l).pixel x (y + heightsBefore l i + yy) =
      (l.get ⟨i, hi⟩).pixel x yy := by
  induction l with
  | nil => intro canvas y i hi; cases hi
  | cons img rest ih =>
      intro canvas y i hi x yy hx hyy hxc hyc
      cases i with
      | zero =>
          rw [heightsBefore_zero] at hyc ⊢
          show (pasteColumn (canvas.paste img 0 y) (y + img.height) rest).pixel
            x (y + 0 + yy) = img.pixel x yy
          have hlt : y + 0 + yy < y + img.height := by
            simp only [List.get] at hyy
            omega
          rw [pasteColumn_pixel_lt rest _ _ _ _ hlt]
          unfold Img.paste
          simp only
          rw [if_pos]
          · have h1 : x - 0 = x := by omega
            have h2 : y + 0 + yy - y = yy := by omega
            rw [h1, h2]
          · simp only [List.get] at hx hyy
            refine ⟨by omega, by omega, by omega, by omega, hxc, by omega⟩
      | succ j =>
          rw [heightsBefore_succ_cons] at hyc ⊢
          show (pasteColumn (canvas.paste img 0 y) (y + img.height) rest).pixel
            x (y + (img.height + heightsBefore rest j) + yy)
            = ((img :: rest).get ⟨j + 1, hi⟩).pixel x yy
          have hj : j < rest.length := by
            simpa using Nat.lt_of_succ_lt_succ hi
          have harith : y + (img.height + heightsBefore rest j) + yy
              = (y + img.height) + heightsBefore rest j + yy := by omega
          rw [harith]
          exact ih (canvas.paste img 0 y) (y + img.height) j hj x yy hx hyy hxc
            (by rw [Img.paste_height]; omega)

theorem heightsBefore_succ_le (l : List Img) (i : Nat) (hi : i < l.length) :
    heightsBefore l i + (l.get ⟨i, hi⟩).height ≤ heightsBefore l (i + 1) := by
  induction l generalizing i with
  | nil => cases hi
  | cons img rest ih =>
      cases i with
      | zero =>
          rw [heightsBefore_zero, heightsBefore_succ_cons]
          simp [List.get]
      | succ j =>
          rw [heightsBefore_succ_cons, heightsBefore_succ_cons]
          have hj : j < rest.length := by simpa using Nat.lt_of_succ_lt_succ hi
          have := ih j hj
          simp only [List.get]
          omega

theorem heightsBefore_mono (l : List Img) (i j : Nat) (hij : i ≤ j) :
    heightsBefore l i ≤ heightsBefore l j := by
  unfold heightsBefore
  conv_rhs => rw [← List.take_append_drop i (l.take j)]
  rw [List.map_append, List.sum_append, List.take_take, min_eq_left hij]
  omega

theorem heightsBefore_succ_eq (l : List Img) (i : Nat) (hi : i < l.length) :
    heightsBefore l (i + 1) = heightsBefore l i + (l.get ⟨i, hi⟩).height := by
  unfold heightsBefore
  rw [List.take_succ, List.map_append, List.sum_append,
      List.getElem?_eq_getElem hi]
  simp [List.get_eq_getElem]

theorem heightsBefore_length (l : List Img) :
    heightsBefore l l.length = (l.map Img.height).sum := by
  unfold heightsBefore
  rw [List.take_length]

theorem heightsBefore_cover (l : List Img) :
    ∀ v : Nat, v < (l.map Img.height).sum →
    ∃ i, i < l.length ∧ heightsBefore l i ≤ v ∧ v < heightsBefore l (i + 1) := by
  induction l with
  | nil => intro v hv; simp at hv
  | cons img rest ih =>
      intro v hv
      by_cases hlt : v < img.height
      · refine ⟨0, by simp, ?_, ?_⟩
        · rw [heightsBefore_zero]; exact Nat.zero_le v
        · rw [heightsBefore_succ_cons, heightsBefore_zero]; omega
      · simp only [List.map_cons, List.sum_cons] at hv
        obtain ⟨i, hi, h1, h2⟩ := ih (v - img.height) (by omega)
        refine ⟨i + 1, by simpa using Nat.succ_lt_succ hi, ?_, ?_⟩
        · rw [heightsBefore_succ_cons]; omega
        · rw [heightsBefore_succ_cons]; omega

theorem combine_geometry (images : List Img)
    (hne : images ≠ []) :
    ∃ c, combine_images_vertically images = some c ∧
      c.height = (images.map Img.height).sum ∧
      (∀ img ∈ images, img.width ≤ c.width) ∧
      (∃ img ∈ images, img.width = c.width) ∧
      (∀ (i : Nat) (hi : i < images.length),
        heightsBefore images (i + 1)
          = heightsBefore images i + (images.get ⟨i, hi⟩).height) ∧
      (∀ (i : Nat) (hi : i < images.length) (x y : Nat),
        x < (images.get ⟨i, hi⟩).width → y < (images.get ⟨i, hi⟩).height →
        c.pixel x (heightsBefore images i + y)
          = (images.get ⟨i, hi⟩).pixel x y) ∧
      (∀ (i j : Nat) (hi : i < images.length) (hj : j < images.length)
        (yi yj : Nat), yi < (images.get ⟨i, hi⟩).height →
        yj < (images.get ⟨j, hj⟩).height →
        heightsBefore images i + yi = heightsBefore images j + yj →
        i = j) ∧
      (∀ v : Nat, v < c.height → ∃ i, i < images.length ∧
        heightsBefore images i ≤ v ∧ v < heightsBefore images (i + 1)) := by
  cases images with
  | nil => exact absurd rfl hne
  | cons a rest =>
      set l := a :: rest with hlst
      set W := (l.map Img.width).foldl max 0 with hW
      set H := (l.map Img.height).sum with hH
      have hcw : (pasteColumn (Img.new W H) 0 l).width = W := by
        rw [pasteColumn_width]; rfl
      have hch : (pasteColumn (Img.new W H) 0 l).height = H := by
        rw [pasteColumn_height]; rfl
      refine ⟨pasteColumn (Img.new W H) 0 l, rfl, hch, ?_, ?_, ?_, ?_, ?_, ?_⟩
      · intro img hmem
        rw [hcw]
        exact le_foldl_max (l.map Img.width) 0 img.width
          (List.mem_map_of_mem Img.width hmem)
      · rw [hcw]
        rcases foldl_max_mem (l.map Img.width) 0 with h0 | hmem
        · refine ⟨a, List.mem_cons_self a rest, ?_⟩
          have hle := le_foldl_max (l.map Img.width) 0 a.width
            (List.mem_map_of_mem Img.width (List.mem_cons_self a rest))
          omega
        · obtain ⟨img, hmem2, heq⟩ := List.mem_map.mp hmem
          exact ⟨img, hmem2, heq⟩
      · intro i hi
        exact heightsBefore_succ_eq l i hi
      · intro i hi x y hx hy
        have hxW : x < W :=
          lt_of_lt_of_le hx (le_foldl_max (l.map Img.width) 0 _
            (List.mem_map_of_mem Img.width (l.get_mem i hi)))
        have hyH : 0 + heightsBefore l i + y < H := by
          have hs := heightsBefore_succ_eq l i hi
          have hm : heightsBefore l (i + 1) ≤ heightsBefore l l.length :=
            heightsBefore_mono l (i + 1) l.length hi
          rw [heightsBefore_length] at hm
          omega
        have := pasteColumn_pixel l (Img.new W H) 0 i hi x y hx hy hxW hyH
        have hco : 0 + heightsBefore l i + y = heightsBefore l i + y := by
          omega
        rw [hco] at this
        exact this
      · intro i j hi hj yi yj hyi hyj heq
        rcases Nat.lt_trichotomy i j with hij | hij | hij
        · exfalso
          have hs := heightsBefore_succ_eq l i hi
          have hm : heightsBefore l (i + 1) ≤ heightsBefore l j :=
            heightsBefore_mono l (i + 1) j hij
          omega
        · exact hij
        · exfalso
          have hs := heightsBefore_succ_eq l j hj
          have hm : heightsBefore l (j + 1) ≤ heightsBefore l i :=
            heightsBefore_mono l (j + 1) i hij
          omega
      · intro v hv
        rw [hch] at hv
        exact heightsBefore_cover l v hv

/-- C2: on a non-empty page sequence, combine_images_vertically returns
a composite whose width is the maximum input width, whose height is the
sum of the input heights, with page i pasted at x = 0 and y = sum of
the heights of all preceding pages in input order, the vertical bands
of distinct pages disjoint, and every row of the composite covered by
some page's band (no overlap, no gap). -/
theorem thm_combine_images_vertically_geometry (images : List Img)
    (hne : images ≠ []) :
    ∃ c, combine_images_vertically images = some c ∧
      c.height = (images.map Img.height).sum ∧
      (∀ img ∈ images, img.width ≤ c.width) ∧
      (∃ img ∈ images, img.width = c.width) ∧
      (∀ (i : Nat) (hi : i < images.length),
        heightsBefore images (i + 1)
          = heightsBefore images i + (images.get ⟨i, hi⟩).height) ∧
      (∀ (i : Nat) (hi : i < images.length) (x y : Nat),
        x < (images.get ⟨i, hi⟩).width → y < (images.get ⟨i, hi⟩).height →
        c.pixel x (heightsBefore images i + y)
          = (images.get ⟨i, hi⟩).pixel x y) ∧
      (∀ (i j : Nat) (hi : i < images.length) (hj : j < images.length)
        (yi yj : Nat), yi < (images.get ⟨i, hi⟩).height →
        yj < (images.get ⟨j, hj⟩).height →
        heightsBefore images i + yi = heightsBefore images j + yj →
        i = j) ∧
      (∀ v : Nat, v < c.height → ∃ i, i < images.length ∧
        heightsBefore images i ≤ v ∧ v < heightsBefore images (i + 1)) :=
  combine_geometry images hne

/-- Witness for C2 on a two-page stack of different widths. -/
theorem thm_combine_images_vertically_geometry_witness :
    ([Img.new 2 3, Img.new 1 2] ≠ []) ∧
    (∃ c, combine_images_vertically [Img.new 2 3, Img.new 1 2] = some c ∧
      c.height = ([Img.new 2 3, Img.new 1 2].map Img.height).sum ∧
      (∀ img ∈ [Img.new 2 3, Img.new 1 2], img.width ≤ c.width) ∧
      (∃ img ∈ [Img.new 2 3, Img.new 1 2], img.width = c.width) ∧
      (∀ (i : Nat) (hi : i < [Img.new 2 3, Img.new 1 2].length),
        heightsBefore [Img.new 2 3, Img.new 1 2] (i + 1)
          = heightsBefore [Img.new 2 3, Img.new 1 2] i
            + ([Img.new 2 3, Img.new 1 2].get ⟨i, hi⟩).height) ∧
      (∀ (i : Nat) (hi : i < [Img.new 2 3, Img.new 1 2].length) (x y : Nat),
        x < ([Img.new 2 3, Img.new 1 2].get ⟨i, hi⟩).width →
        y < ([Img.new 2 3, Img.new 1 2].get ⟨i, hi⟩).height →
        c.pixel x (heightsBefore [Img.new 2 3, Img.new 1 2] i + y)
          = ([Img.new 2 3, Img.new 1 2].get ⟨i, hi⟩).pixel x y) ∧
      (∀ (i j : Nat) (hi : i < [Img.new 2 3, Img.new 1 2].length)
        (hj : j < [Img.new 2 3, Img.new 1 2].length) (yi yj : Nat),
        yi < ([Img.new 2 3, Img.new 1 2].get ⟨i, hi⟩).height →
        yj < ([Img.new 2 3, Img.new 1 2].get ⟨j, hj⟩).height →
        heightsBefore [Img.new 2 3, Img.new 1 2] i + yi
          = heightsBefore [Img.new 2 3, Img.new 1 2] j + yj → i = j) ∧
      (∀ v : Nat, v < c.height →
        ∃ i, i < [Img.new 2 3, Img.new 1 2].length ∧
          heightsBefore [Img.new 2 3, Img.new 1 2] i ≤ v ∧
          v < heightsBefore [Img.new 2 3, Img.new 1 2] (i + 1))) :=
  ⟨by simp,
   thm_combine_images_vertically_geometry [Img.new 2 3, Img.new 1 2]
     (by simp)⟩

/-- C3 counterexample: on the empty input, combine_images_vertically
returns None (no composite, no exception), rather than failing with an
EmptyInput error. -/
theorem cex_combine_images_vertically_empty :
    combine_images_vertically [] = none := rfl

/-- C3 amended: on the empty input combine_images_vertically returns
None rather than raising; for every non-empty input whose pages all
have positive width and height, it returns a composite of positive
width and height (never a zero-size image). -/
theorem thm_combine_images_vertically_empty_amended :
    combine_images_vertically [] = none ∧
    ∀ images : List Img, images ≠ [] →
      (∀ img ∈ images, 0 < img.width ∧ 0 < img.height) →
      ∃ c, combine_images_vertically images = some c ∧
        0 < c.width ∧ 0 < c.height := by
  refine ⟨rfl, ?_⟩
  intro images hne hpos
  obtain ⟨c, hc, hh, hwle, hwmax, -, -, -, -⟩ :=
    combine_geometry images hne
  refine ⟨c, hc, ?_, ?_⟩
  · obtain ⟨img, hmem, heq⟩ := hwmax
    have := (hpos img hmem).1
    omega
  · cases images with
    | nil => exact absurd rfl hne
    | cons a rest =>
        have ha := (hpos a (List.mem_cons_self a rest)).2
        rw [hh]
        simp only [List.map_cons, List.sum_cons]
        omega

/-- Witness for the amended C3 on a single positive-size page. -/
theorem thm_combine_images_vertically_empty_amended_witness :
    (([Img.new 1 1] : List Img) ≠ [] ∧
      (∀ img ∈ [Img.new 1 1], 0 < img.width ∧ 0 < img.height)) ∧
    (∃ c, combine_images_vertically [Img.new 1 1] = some c ∧
      0 < c.width ∧ 0 < c.height) :=
  ⟨⟨by simp, by simp [Img.new]⟩,
   thm_combine_images_vertically_empty_amended.2 [Img.new 1 1]
     (by simp) (by simp [Img.new])⟩

theorem b64Index_b64Char : ∀ n : Nat, n < 64 → b64Index (b64Char n) = n := by
  decide

theorem b64Char_ne_pad : ∀ n : Nat, n < 64 → ¬ (b64Char n = '=') := by
  decide

theorem b64_roundtrip : ∀ B : List Nat, (∀ x ∈ B, x < 256) →
    b64decodeChars (b64encodeBytes B) = B
  | [], _ => rfl
  | [a], h => by
      have ha : a < 256 := h a (by simp)
      simp only [b64encodeBytes, b64decodeChars, if_true]
      rw [b64Index_b64Char _ (by omega), b64Index_b64Char _ (by omega)]
      simp only [List.cons.injEq, and_true]
      omega
  | [a, b], h => by
      have ha : a < 256 := h a (by simp)
      have hb : b < 256 := h b (by simp)
      simp only [b64encodeBytes, b64decodeChars, if_true]
      rw [if_neg (b64Char_ne_pad _ (by omega))]
      rw [b64Index_b64Char _ (by omega), b64Index_b64Char _ (by omega),
          b64Index_b64Char _ (by omega)]
      simp only [List.cons.injEq, and_true]
      exact ⟨by omega, by omega⟩
  | a :: b :: c :: d :: rest, h => by
      have ha : a < 256 := h a (by simp)
      have hb : b < 256 := h b (by simp)
      have hc : c < 256 := h c (by simp)
      have ih := b64_roundtrip (d :: rest) (fun x hx => h x (by simp at hx ⊢; tauto))
      simp only [b64encodeBytes, b64decodeChars]
      rw [if_neg (b64Char_ne_pad _ (by omega)),
          if_neg (b64Char_ne_pad _ (by omega))]
      rw [b64Index_b64Char _ (by omega), b64Index_b64Char _ (by omega),
          b64Index_b64Char _ (by omega), b64Index_b64Char _ (by omega)]
      rw [ih]
      simp only [List.cons.injEq, and_true, and_self]
      exact ⟨by omega, by omega, by omega⟩
  | [a, b, c], h => by
      have ha : a < 256 := h a (by simp)
      have hb : b < 256 := h b (by simp)
      have hc : c < 256 := h c (by simp)
      simp only [b64encodeBytes, b64decodeChars]
      rw [if_neg (b64Char_ne_pad _ (by omega)),
          if_neg (b64Char_ne_pad _ (by omega))]
      rw [b64Index_b64Char _ (by omega), b64Index_b64Char _ (by omega),
          b64Index_b64Char _ (by omega), b64Index_b64Char _ (by omega)]
      simp only [List.cons.injEq, and_true]
      exact ⟨by omega, by omega, by omega⟩

/-- C10: encode_image_to_base64 returns exactly the fixed data-URI head
"data:image/png;base64," followed by the standard base64 encoding of
the file's bytes, and stripping that 22-character head and
base64-decoding the remainder recovers the bytes exactly. -/
theorem thm_encode_image_to_base64_roundtrip (B : List Nat)
    (h : ∀ x ∈ B, x < 256) :
    encode_image_to_base64 B =
      "data:image/png;base64,".toList ++ b64encodeBytes B ∧
    b64decodeChars ((encode_image_to_base64 B).drop 22) = B := by
  refine ⟨rfl, ?_⟩
  show b64decodeChars
    (("data:image/png;base64,".toList ++ b64encodeBytes B).drop 22) = B
  have hlen : ("data:image/png;base64,".toList).length = 22 := rfl
  rw [← hlen, List.drop_left]
  exact b64_roundtrip B h

theorem except_map_eq_ok {α β γ : Type} (f : α → β) (x : Except γ α) (b : β)
    (h : x.map f = Except.ok b) : ∃ a, x = Except.ok a ∧ b = f a := by
  cases x with
  | error e => simp [Except.map] at h
  | ok a =>
      simp only [Except.map, Except.ok.injEq] at h
      exact ⟨a, rfl, h.symm⟩

theorem savePages_attempts (names : Nat → String) (failAt : Nat → Bool)
    (imgs : List Img) : ∀ (i : Nat) (st : St),
    (savePages names failAt imgs i st).2.fs.removeAttempts
      = st.fs.removeAttempts := by
  induction imgs with
  | nil => intro i st; rfl
  | cons img rest ih =>
      intro i st
      simp only [savePages]
      by_cases hf : failAt i = true
      · rw [if_pos hf]
        rfl
      · rw [if_neg hf]
        rw [ih]
        rfl

theorem savePages_existing_mono (names : Nat → String) (failAt : Nat → Bool)
    (imgs : List Img) : ∀ (i : Nat) (st : St) (p : String),
    p ∈ st.fs.existing →
    p ∈ (savePages names failAt imgs i st).2.fs.existing := by
  induction imgs with
  | nil => intro i st p hp; exact hp
  | cons img rest ih =>
      intro i st p hp
      simp only [savePages]
      by_cases hf : failAt i = true
      · rw [if_pos hf]
        exact hp
      · rw [if_neg hf]
        apply ih
        show p ∈ (st.fs.saveImage _ img).existing
        unfold FS.saveImage FS.save
        simp only
        split
        · exact hp
        · exact List.mem_cons_of_mem _ hp

theorem savePages_savedImages_mono (names : Nat → String)
    (failAt : Nat → Bool) (imgs : List Img) :
    ∀ (i : Nat) (st : St) (q : String × Img), q ∈ st.fs.savedImages →
    q ∈ (savePages names failAt imgs i st).2.fs.savedImages := by
  induction imgs with
  | nil => intro i st q hq; exact hq
  | cons img rest ih =>
      intro i st q hq
      simp only [savePages]
      by_cases hf : failAt i = true
      · rw [if_pos hf]
        exact hq
      · rw [if_neg hf]
        apply ih
        show q ∈ (st.fs.saveImage _ img).savedImages
        unfold FS.saveImage
        exact List.mem_cons_of_mem _ hq

theorem savePages_ok_length (names : Nat → String) (failAt : Nat → Bool)
    (imgs : List Img) : ∀ (i : Nat) (st : St) (paths : List String) (st2 : St),
    savePages names failAt imgs i st = (Except.ok paths, st2) →
    paths.length = imgs.length := by
  induction imgs with
  | nil =>
      intro i st paths st2 hsp
      have h1 := congrArg Prod.fst hsp
      simp only [savePages, Except.ok.injEq] at h1
      rw [← h1]
      rfl
  | cons img rest ih =>
      intro i st paths st2 hsp
      simp only [savePages] at hsp
      by_cases hf : failAt i = true
      · rw [if_pos hf] at hsp
        exact absurd (congrArg Prod.fst hsp) (by simp)
      · rw [if_neg hf] at hsp
        have h1 := congrArg Prod.fst hsp
        have h2 := congrArg Prod.snd hsp
        simp only at h1 h2
        obtain ⟨ps, hX, hpaths⟩ := except_map_eq_ok _ _ _ h1
        subst hpaths
        have := ih (i + 1) _ ps _ (Prod.ext hX h2)
        simp [this]

theorem savePages_ok_saved (names : Nat → String) (failAt : Nat → Bool)
    (imgs : List Img) : ∀ (i : Nat) (st : St) (paths : List String) (st2 : St),
    savePages names failAt imgs i st = (Except.ok paths, st2) →
    ∀ (k : Nat) (hk1 : k < paths.length) (hk : k < imgs.length),
    (paths.get ⟨k, hk1⟩, imgs.get ⟨k, hk⟩) ∈ st2.fs.savedImages := by
  induction imgs with
  | nil => intro i st paths st2 _ k _ hk; exact absurd hk (Nat.not_lt_zero k)
  | cons img rest ih =>
      intro i st paths st2 hsp k hk1 hk
      simp only [savePages] at hsp
      by_cases hf : failAt i = true
      · rw [if_pos hf] at hsp
        exact absurd (congrArg Prod.fst hsp) (by simp)
      · rw [if_neg hf] at hsp
        have h1 := congrArg Prod.fst hsp
        have h2 := congrArg Prod.snd hsp
        simp only at h1 h2
        obtain ⟨ps, hX, hpaths⟩ := except_map_eq_ok _ _ _ h1
        subst hpaths
        cases k with
        | zero =>
            simp only [List.get]
            rw [← h2]
            apply savePages_savedImages_mono
            show _ ∈ (st.fs.saveImage _ img).savedImages
            unfold FS.saveImage
            exact List.mem_cons_self _ _
        | succ k =>
            simp only [List.get]
            exact ih (i + 1) _ ps st2 (Prod.ext hX h2) k
              (by simpa using hk1) (by simpa using hk)

theorem savePages_no_fail_ok (names : Nat → String) (failAt : Nat → Bool)
    (hnf : ∀ j, failAt j = false) (imgs : List Img) :
    ∀ (i : Nat) (st : St), ∃ paths st2,
    savePages names failAt imgs i st = (Except.ok paths, st2) := by
  induction imgs with
  | nil => intro i st; exact ⟨[], st, rfl⟩
  | cons img rest ih =>
      intro i st
      obtain ⟨ps, st2, hrec⟩ := ih (i + 1)
        { fs := st.fs.saveImage
            ("page_" ++ toString (i + 1) ++ "_" ++ names st.ctr ++ ".png") img,
          ctr := st.ctr + 1 }
      refine ⟨("page_" ++ toString (i + 1) ++ "_" ++ names st.ctr ++ ".png")
        :: ps, st2, ?_⟩
      simp only [savePages]
      rw [if_neg (by simp [hnf i])]
      dsimp only [freshName]
      rw [hrec]
      rfl

theorem cleanup_some_completes (ps : List String) :
    ∀ st : St, (cleanup_temp_files (ps.map some) st).2 = true := by
  induction ps with
  | nil => intro st; rfl
  | cons p rest ih =>
      intro st
      simp only [List.map_cons, cleanup_temp_files]
      exact ih _

theorem cleanup_some_created (ps : List String) :
    ∀ st : St, (cleanup_temp_files (ps.map some) st).1.fs.created
      = st.fs.created := by
  induction ps with
  | nil => intro st; rfl
  | cons p rest ih =>
      intro st
      simp only [List.map_cons, cleanup_temp_files]
      rw [ih]
      rfl

theorem cleanup_some_attempts (ps : List String) :
    ∀ (st : St) (p : String), p ∈ ps ∨ p ∈ st.fs.removeAttempts →
    p ∈ (cleanup_temp_files (ps.map some) st).1.fs.removeAttempts := by
  induction ps with
  | nil =>
      intro st p hp
      rcases hp with h | h
      · cases h
      · exact h
  | cons q rest ih =>
      intro st p hp
      simp only [List.map_cons, cleanup_temp_files]
      apply ih
      rcases hp with h | h
      · rcases List.mem_cons.mp h with h1 | h1
        · right
          show p ∈ q :: st.fs.removeAttempts
          rw [h1]
          exact List.mem_cons_self q _
        · left; exact h1
      · right
        exact List.mem_cons_of_mem q h

theorem FS.mem_save_self (fs : FS) (p : String) : p ∈ (fs.save p).existing := by
  unfold FS.save
  simp only
  split
  · assumption
  · exact List.mem_cons_self p _

theorem FS.mem_saveImage_self (fs : FS) (p : String) (img : Img) :
    p ∈ (fs.saveImage p img).existing := by
  unfold FS.saveImage
  exact fs.mem_save_self p

theorem FS.removeAttempt_attempts_mem (fs : FS) (p : String) :
    p ∈ (fs.removeAttempt p).removeAttempts :=
  List.mem_cons_self p _

theorem FS.removeAttempt_removed_mem (fs : FS) (p : String)
    (h : p ∈ fs.existing) : p ∈ (fs.removeAttempt p).removed := by
  unfold FS.removeAttempt
  simp only
  rw [if_pos h]
  exact List.mem_cons_self p _

theorem FS.removeAttempt_not_existing (fs : FS) (p : String) :
    p ∉ (fs.removeAttempt p).existing := by
  unfold FS.removeAttempt
  simp only
  intro hmem
  have := List.of_mem_filter hmem
  simp at this

theorem pdf_to_images_err_eq (env : Env) (st : St) (e : String)
    (henv : env.convertResult = Except.error e) :
    pdf_to_images env true st =
      (Except.error e,
       { fs := (st.fs.save (env.tmpNames st.ctr ++ ".pdf")).removeAttempt
           (env.tmpNames st.ctr ++ ".pdf"),
         ctr := st.ctr + 1 }) := by
  unfold pdf_to_images freshName
  rw [henv]
  rfl

theorem pdf_to_images_convert_ok_eq (env : Env) (st : St) (pages : List Img)
    (r : Except String (List String)) (st2 : St)
    (henv : env.convertResult = Except.ok pages)
    (hsp : savePages env.tmpNames env.pageSaveFails pages 0
      { fs := st.fs.save (env.tmpNames st.ctr ++ ".pdf"),
        ctr := st.ctr + 1 } = (r, st2)) :
    pdf_to_images env true st =
      (r, { fs := st2.fs.removeAttempt (env.tmpNames st.ctr ++ ".pdf"),
            ctr := st2.ctr }) := by
  unfold pdf_to_images freshName
  rw [henv]
  dsimp only
  rw [hsp]
  rfl

theorem combine_file_nil_eq (env : Env) (st : St) :
    combine_images_vertically_file env [] st = (Except.ok none, st) := rfl

theorem combine_file_cons_some (env : Env) (st : St) (a : String)
    (rest : List String) (hf : env.compositeSaveFails = false) :
    ∃ comp : Img, combine_images_vertically_file env (a :: rest) st =
      (Except.ok (some ("composite_" ++ env.tmpNames st.ctr ++ ".png")),
       { fs := st.fs.saveImage
           ("composite_" ++ env.tmpNames st.ctr ++ ".png") comp,
         ctr := st.ctr + 1 }) := by
  unfold combine_images_vertically_file freshName
  rw [hf]
  exact ⟨_, rfl⟩

theorem combine_file_cons_fail (env : Env) (st : St) (a : String)
    (rest : List String) (hf : env.compositeSaveFails = true) :
    combine_images_vertically_file env (a :: rest) st =
      (Except.error "composite save failed", st) := by
  unfold combine_images_vertically_file
  rw [hf]
  rfl

theorem cleanup_none_singleton (st : St) :
    cleanup_temp_files [none] st = (st, false) := rfl

/-- C8: pdf_to_images removes the temporary PDF it wrote for its own
input before returning, on the success path and on the
rasterization-failure path alike: the removal is attempted, succeeds,
and the file no longer exists in the returned state, independently of
the request-level cleanup. -/
theorem thm_pdf_to_images_input_pdf_released (env : Env) (st : St) :
    (env.tmpNames st.ctr ++ ".pdf")
      ∈ (pdf_to_images env true st).2.fs.removeAttempts ∧
    (env.tmpNames st.ctr ++ ".pdf")
      ∈ (pdf_to_images env true st).2.fs.removed ∧
    (env.tmpNames st.ctr ++ ".pdf")
      ∉ (pdf_to_images env true st).2.fs.existing := by
  cases henv : env.convertResult with
  | error e =>
      rw [pdf_to_images_err_eq env st e henv]
      exact ⟨FS.removeAttempt_attempts_mem _ _,
        FS.removeAttempt_removed_mem _ _ (FS.mem_save_self _ _),
        FS.removeAttempt_not_existing _ _⟩
  | ok pages =>
      obtain ⟨r, st2, hsp⟩ :
          ∃ r s, savePages env.tmpNames env.pageSaveFails pages 0
            { fs := st.fs.save (env.tmpNames st.ctr ++ ".pdf"),
              ctr := st.ctr + 1 } = (r, s) := ⟨_, _, rfl⟩
      rw [pdf_to_images_convert_ok_eq env st pages r st2 henv hsp]
      have hex : (env.tmpNames st.ctr ++ ".pdf") ∈ st2.fs.existing := by
        have hm := savePages_existing_mono env.tmpNames env.pageSaveFails
          pages 0
          { fs := st.fs.save (env.tmpNames st.ctr ++ ".pdf"),
            ctr := st.ctr + 1 }
          (env.tmpNames st.ctr ++ ".pdf") (FS.mem_save_self _ _)
        rw [hsp] at hm
        exact hm
      exact ⟨FS.removeAttempt_attempts_mem _ _,
        FS.removeAttempt_removed_mem _ _ hex,
        FS.removeAttempt_not_existing _ _⟩

/-- C5 counterexample: a PDF that rasterizes to zero pages makes
pdf_to_images return the empty page list, not an EmptyDocument
failure. -/
theorem cex_pdf_to_images_zero_pages :
    (pdf_to_images envZeroPages true St.init).1 = Except.ok [] := by
  rw [pdf_to_images_convert_ok_eq envZeroPages St.init [] (Except.ok []) _
    rfl rfl]

/-- C5 amended: on a PDF that rasterizes to N pages, pdf_to_images
returns exactly N page-image paths, the k-th path holding the k-th
page, in page order; when the underlying rasterizer fails, that failure
propagates out of pdf_to_images; when rasterization yields zero pages
it returns the empty sequence (it does not fail with EmptyDocument). -/
theorem thm_pdf_to_images_amended (env : Env) (st : St) :
    (∀ e, env.convertResult = Except.error e →
      (pdf_to_images env true st).1 = Except.error e) ∧
    (∀ pages, env.convertResult = Except.ok pages →
      (∀ i, env.pageSaveFails i = false) →
      ∃ paths, (pdf_to_images env true st).1 = Except.ok paths ∧
        paths.length = pages.length ∧
        (pages = [] → paths = []) ∧
        ∀ (k : Nat) (hk1 : k < paths.length) (hk : k < pages.length),
          (paths.get ⟨k, hk1⟩, pages.get ⟨k, hk⟩)
            ∈ (pdf_to_images env true st).2.fs.savedImages) := by
  constructor
  · intro e h
    rw [pdf_to_images_err_eq env st e h]
  · intro pages h hnf
    obtain ⟨paths, st2, hsp⟩ := savePages_no_fail_ok env.tmpNames
      env.pageSaveFails hnf pages 0
      { fs := st.fs.save (env.tmpNames st.ctr ++ ".pdf"), ctr := st.ctr + 1 }
    rw [pdf_to_images_convert_ok_eq env st pages (Except.ok paths) st2 h hsp]
    have hlen := savePages_ok_length env.tmpNames env.pageSaveFails pages 0
      _ paths st2 hsp
    refine ⟨paths, rfl, hlen, ?_, ?_⟩
    · intro hnil
      subst hnil
      exact List.length_eq_zero.mp hlen
    · intro k hk1 hk
      exact savePages_ok_saved env.tmpNames env.pageSaveFails pages 0 _
        paths st2 hsp k hk1 hk

/-- Witness for the amended C5 on the two-page environment. -/
theorem thm_pdf_to_images_amended_witness :
    (envTwoPages.convertResult = Except.ok [Img.new 2 3, Img.new 1 2]) ∧
    (∀ i, envTwoPages.pageSaveFails i = false) ∧
    (∃ paths, (pdf_to_images envTwoPages true St.init).1 = Except.ok paths ∧
      paths.length = ([Img.new 2 3, Img.new 1 2] : List Img).length ∧
      (([Img.new 2 3, Img.new 1 2] : List Img) = [] → paths = []) ∧
      ∀ (k : Nat) (hk1 : k < paths.length)
        (hk : k < ([Img.new 2 3, Img.new 1 2] : List Img).length),
        (paths.get ⟨k, hk1⟩, ([Img.new 2 3, Img.new 1 2] : List Img).get ⟨k, hk⟩)
          ∈ (pdf_to_images envTwoPages true St.init).2.fs.savedImages) :=
  ⟨rfl, fun _ => rfl, (thm_pdf_to_images_amended envTwoPages St.init).2
    [Img.new 2 3, Img.new 1 2] rfl (fun _ => rfl)⟩

/-- C9: a request with no uploaded file or an empty filename is
rejected immediately: the handler returns the validation redirect, the
state is untouched, no temp file was created and none exists
afterward. -/
theorem thm_analyze_validation_rejects (env : Env)
    (h : env.uploadedFile = false ∨ env.filename = "") :
    (analyze env).1 = Except.ok (Response.redirectError "No file selected.") ∧
    (analyze env).2 = St.init ∧
    (analyze env).2.fs.created = [] ∧
    (analyze env).2.fs.existing = [] := by
  have heq : analyze env
      = (Except.ok (Response.redirectError "No file selected."), St.init) := by
    unfold analyze
    rw [if_pos h]
  rw [heq]
  exact ⟨rfl, rfl, rfl, rfl⟩

/-- Witness for C9 on the no-file environment. -/
theorem thm_analyze_validation_rejects_witness :
    (envNoFile.uploadedFile = false ∨ envNoFile.filename = "") ∧
    ((analyze envNoFile).1
        = Except.ok (Response.redirectError "No file selected.") ∧
      (analyze envNoFile).2 = St.init ∧
      (analyze envNoFile).2.fs.created = [] ∧
      (analyze envNoFile).2.fs.existing = []) :=
  ⟨Or.inl rfl, thm_analyze_validation_rejects envNoFile (Or.inl rfl)⟩

theorem analyze_validation_eq (env : Env)
    (h : env.uploadedFile = false ∨ env.filename = "") :
    analyze env
      = (Except.ok (Response.redirectError "No file selected."), St.init) := by
  unfold analyze
  rw [if_pos h]

theorem analyze_rasterize_err_eq (env : Env) (e : String)
    (hval : ¬ (env.uploadedFile = false ∨ env.filename = ""))
    (henv : env.convertResult = Except.error e) :
    analyze env = (Except.ok (Response.errorPage
        ("An error occurred during processing: " ++ e)),
      (pdf_to_images env true St.init).2) := by
  unfold analyze
  rw [if_neg hval, pdf_to_images_err_eq env St.init e henv]

theorem analyze_success_eq (env : Env) (pages : List Img)
    (paths : List String) (stSp stC stF : St) (cpath : String)
    (hval : ¬ (env.uploadedFile = false ∨ env.filename = ""))
    (henv : env.convertResult = Except.ok pages)
    (hsp : savePages env.tmpNames env.pageSaveFails pages 0
      { fs := St.init.fs.save (env.tmpNames St.init.ctr ++ ".pdf"),
        ctr := St.init.ctr + 1 } = (Except.ok paths, stSp))
    (hcomb : combine_images_vertically_file env paths
      { fs := stSp.fs.removeAttempt (env.tmpNames St.init.ctr ++ ".pdf"),
        ctr := stSp.ctr } = (Except.ok (some cpath), stC))
    (hcl : cleanup_temp_files (paths.map some ++ [some cpath]) stC
      = (stF, true)) :
    analyze env = (Except.ok (Response.resultsPage
      [analyze_image env 0, analyze_image env 1, analyze_image env 2,
       analyze_image env 3, analyze_image env 4, analyze_image env 5]
      (encode_image_to_base64 env.compositeBytes)), stF) := by
  unfold analyze
  rw [if_neg hval,
      pdf_to_images_convert_ok_eq env St.init pages (Except.ok paths) stSp
        henv hsp]
  dsimp only
  rw [hcomb]
  dsimp only
  rw [hcl]
  rfl

theorem analyze_zero_pages_eq (env : Env)
    (hval : ¬ (env.uploadedFile = false ∨ env.filename = ""))
    (henv : env.convertResult = Except.ok []) :
    analyze env = (Except.error "TypeError: remove(None)",
      (pdf_to_images env true St.init).2) := by
  unfold analyze
  rw [if_neg hval,
      pdf_to_images_convert_ok_eq env St.init [] (Except.ok []) _ henv rfl]
  rfl

theorem analyze_combine_fail_eq (env : Env) (pages : List Img)
    (p0 : String) (prest : List String) (stSp : St)
    (hval : ¬ (env.uploadedFile = false ∨ env.filename = ""))
    (henv : env.convertResult = Except.ok pages)
    (hsp : savePages env.tmpNames env.pageSaveFails pages 0
      { fs := St.init.fs.save (env.tmpNames St.init.ctr ++ ".pdf"),
        ctr := St.init.ctr + 1 } = (Except.ok (p0 :: prest), stSp))
    (hf : env.compositeSaveFails = true) :
    analyze env = (Except.ok (Response.errorPage
        ("An error occurred during processing: " ++ "composite save failed")),
      (cleanup_temp_files ((p0 :: prest).map some)
        { fs := stSp.fs.removeAttempt (env.tmpNames St.init.ctr ++ ".pdf"),
          ctr := stSp.ctr }).1) := by
  unfold analyze
  rw [if_neg hval,
      pdf_to_images_convert_ok_eq env St.init pages (Except.ok (p0 :: prest))
        stSp henv hsp]
  dsimp only
  rw [combine_file_cons_fail env _ p0 prest hf]

theorem analyze_image_err (env : Env) (i : Nat) (e : String)
    (h : env.modelResult i = Except.error e) :
    analyze_image env i = errHead ++ e := by
  unfold analyze_image
  rw [h]
  rfl

/-- C4: when the remote model call fails, analyze_image returns the
user-facing error string embedding the failure reason instead of
raising; consequently a request in which all six section calls fail
still completes with a success response whose six section values are
exactly those error-indicator strings. -/
theorem thm_analyze_image_error_handling :
    (∀ (env : Env) (i : Nat) (e : String),
      env.modelResult i = Except.error e →
      analyze_image env i = errHead ++ e) ∧
    (∀ (env : Env) (pg : Img) (pgs : List Img) (e : Nat → String),
      ¬ (env.uploadedFile = false ∨ env.filename = "") →
      env.convertResult = Except.ok (pg :: pgs) →
      (∀ i, env.pageSaveFails i = false) →
      env.compositeSaveFails = false →
      (∀ i, env.modelResult i = Except.error (e i)) →
      (analyze env).1 = Except.ok (Response.resultsPage
        [errHead ++ e 0, errHead ++ e 1, errHead ++ e 2,
         errHead ++ e 3, errHead ++ e 4, errHead ++ e 5]
        (encode_image_to_base64 env.compositeBytes))) := by
  constructor
  · exact analyze_image_err
  · intro env pg pgs e hval henv hnf hf hmodel
    obtain ⟨paths, stSp, hsp⟩ := savePages_no_fail_ok env.tmpNames
      env.pageSaveFails hnf (pg :: pgs) 0
      { fs := St.init.fs.save (env.tmpNames St.init.ctr ++ ".pdf"),
        ctr := St.init.ctr + 1 }
    have hlen : paths.length = (pg :: pgs).length :=
      savePages_ok_length env.tmpNames env.pageSaveFails (pg :: pgs) 0
        _ paths stSp hsp
    cases paths with
    | nil => simp at hlen
    | cons p0 prest =>
        obtain ⟨comp, hcomb0⟩ := combine_file_cons_some env
          { fs := stSp.fs.removeAttempt (env.tmpNames St.init.ctr ++ ".pdf"),
            ctr := stSp.ctr } p0 prest hf
        obtain ⟨cpath, stC, hcomb⟩ :
            ∃ c s, combine_images_vertically_file env (p0 :: prest)
              { fs := stSp.fs.removeAttempt
                  (env.tmpNames St.init.ctr ++ ".pdf"),
                ctr := stSp.ctr } = (Except.ok (some c), s) :=
          ⟨_, _, hcomb0⟩
        have hmap : (p0 :: prest).map some ++ [some cpath]
            = ((p0 :: prest) ++ [cpath]).map some := by
          rw [List.map_append]
          rfl
        have hcl : cleanup_temp_files ((p0 :: prest).map some ++
              [some cpath]) stC
            = ((cleanup_temp_files ((p0 :: prest).map some ++
                [some cpath]) stC).1, true) := by
          rw [hmap]
          exact Prod.ext rfl (cleanup_some_completes _ _)
        have heq := analyze_success_eq env (pg :: pgs) (p0 :: prest)
          stSp stC _ cpath hval henv hsp hcomb hcl
        have hai : ∀ i : Nat, analyze_image env i = errHead ++ e i :=
          fun i => analyze_image_err env i (e i) (hmodel i)
        have hfst := congrArg Prod.fst heq
        simp only [hai] at hfst
        exact hfst

/-- Witness for C4 on the two-page environment with the model service
unreachable on every call. -/
theorem thm_analyze_image_error_handling_witness :
    (envTwoPages.modelResult 0 = Except.error "service unreachable" ∧
      analyze_image envTwoPages 0 = errHead ++ "service unreachable") ∧
    (¬ (envTwoPages.uploadedFile = false ∨ envTwoPages.filename = "") ∧
      envTwoPages.convertResult = Except.ok (Img.new 2 3 :: [Img.new 1 2]) ∧
      (∀ i, envTwoPages.pageSaveFails i = false) ∧
      envTwoPages.compositeSaveFails = false ∧
      (analyze envTwoPages).1 = Except.ok (Response.resultsPage
        [errHead ++ "service unreachable", errHead ++ "service unreachable",
         errHead ++ "service unreachable", errHead ++ "service unreachable",
         errHead ++ "service unreachable", errHead ++ "service unreachable"]
        (encode_image_to_base64 envTwoPages.compositeBytes))) :=
  ⟨⟨rfl, thm_analyze_image_error_handling.1 envTwoPages 0
      "service unreachable" rfl⟩,
   ⟨by simp [envTwoPages], rfl, fun _ => rfl, rfl,
    thm_analyze_image_error_handling.2 envTwoPages (Img.new 2 3)
      [Img.new 1 2] (fun _ => "service unreachable")
      (by simp [envTwoPages]) rfl (fun _ => rfl) rfl (fun _ => rfl)⟩⟩

theorem FS.removeAttempt_created (fs : FS) (p : String) :
    (fs.removeAttempt p).created = fs.created := rfl

theorem FS.save_created (fs : FS) (p : String) :
    (fs.save p).created = p :: fs.created := rfl

theorem FS.saveImage_created (fs : FS) (p : String) (img : Img) :
    (fs.saveImage p img).created = p :: fs.created := rfl

theorem FS.removeAttempt_attempts (fs : FS) (p : String) :
    (fs.removeAttempt p).removeAttempts = p :: fs.removeAttempts := rfl

theorem FS.save_attempts (fs : FS) (p : String) :
    (fs.save p).removeAttempts = fs.removeAttempts := rfl

theorem FS.saveImage_attempts (fs : FS) (p : String) (img : Img) :
    (fs.saveImage p img).removeAttempts = fs.removeAttempts := rfl

/-- C1 (refuted — code bug): in a run where image.save raises while
writing the second page (app.py lines 54-57), the first page PNG has
already been created, still exists when the handler returns its error
response, and its removal is never attempted: the exception propagates
out of pdf_to_images before the page paths reach temp_paths, so the
finally-block cleanup at line 253 iterates over an empty list and the
already-saved page image leaks. -/
theorem thm_analyze_page_save_leak :
    ("page_1_t1.png" ∈ (analyze envPageFail).2.fs.created) ∧
    ("page_1_t1.png" ∈ (analyze envPageFail).2.fs.existing) ∧
    ("page_1_t1.png" ∉ (analyze envPageFail).2.fs.removeAttempts) ∧
    (analyze envPageFail).1 = Except.ok (Response.errorPage
      ("An error occurred during processing: " ++ "page save failed")) :=
  ⟨by decide, by decide, by decide, rfl⟩

/-- Witness for C10 at the PNG magic bytes. -/
theorem thm_encode_image_to_base64_roundtrip_witness :
    (∀ x ∈ [137, 80, 78, 71, 13, 10], x < 256) ∧
    b64decodeChars ((encode_image_to_base64 [137, 80, 78, 71, 13, 10]).drop 22)
      = [137, 80, 78, 71, 13, 10] :=
  ⟨by decide,
   (thm_encode_image_to_base64_roundtrip [137, 80, 78, 71, 13, 10]
     (by decide)).2⟩

end MedApp
